import Mathlib

set_option maxHeartbeats 1000000

/- Shallow embedding of the AI case scheduler of
   `backend/services/aiSchedulerService.js` and of the scheduling-relevant
   parts of the Case model (`caseSchema`).

   Modelling conventions:
   * JavaScript numbers are `Option ℚ`, with `none` playing the role of
     NaN (JSON.parse cannot produce NaN or infinities, but the scheduler's
     arithmetic can).  Decimal rendering and float rounding are not
     modelled; no claim depends on them.
   * Timestamps are integer milliseconds with fixed 86400000 ms days
     (`Date.setDate` timezone/DST effects and float rounding of epoch
     arithmetic are not modelled); `Math.floor` of a day quotient is
     floor division.
   * Parsed JSON values are the inductive type `JSVal`; `undefined` is the
     result of reading an absent property. -/

/-- JavaScript values as they appear while the scheduler handles a parsed
model response. -/
inductive JSVal where
  | undefined
  | null
  | bool (b : Bool)
  | num (q : ℚ)
  | str (s : String)
  | arr (xs : List JSVal)
  | obj (fields : List (String × JSVal))

/-- JS truthiness: `undefined`, `null`, `false`, `0` and the empty string
are falsy; arrays and objects are always truthy. -/
def JSVal.truthy : JSVal → Bool
  | .undefined => false
  | .null => false
  | .bool b => b
  | .num q => decide (q ≠ 0)
  | .str s => decide (s ≠ "")
  | .arr _ => true
  | .obj _ => true

/-- Accumulate a decimal digit string; `none` when a non-digit occurs. -/
def jsDigitVal (cs : List Char) : Option ℕ :=
  cs.foldl
    (fun acc c =>
      match acc with
      | some n => if c.isDigit then some (n * 10 + (c.toNat - 48)) else none
      | none => none)
    (some 0)

/-- Split a character list at the first dot. -/
def jsSplitDot : List Char → List Char × Option (List Char)
  | [] => ([], none)
  | c :: cs =>
    if c = '.' then ([], some cs)
    else
      let r := jsSplitDot cs
      (c :: r.1, r.2)

/-- Unsigned decimal numeral, with an optional fraction part. -/
def jsUnsignedNum (cs : List Char) : Option ℚ :=
  match jsSplitDot cs with
  | (ip, none) =>
    if ip.isEmpty then none else (jsDigitVal ip).map (fun n => (n : ℚ))
  | (ip, some fp) =>
    if fp.any (fun c => c = '.') then none
    else if ip.isEmpty && fp.isEmpty then none
    else
      match jsDigitVal ip, jsDigitVal fp with
      | some n, some f => some ((n : ℚ) + (f : ℚ) / (10 : ℚ) ^ fp.length)
      | _, _ => none

def jsIsSpace (c : Char) : Bool :=
  c == ' ' || c == '\t' || c == '\n' || c == '\r'

/-- Simplified JS `ToNumber` for strings: optional surrounding whitespace,
optional sign, decimal digits with an optional fraction part; the empty
string is `0`.  Exponent, hex and `Infinity` forms are mapped to NaN
(no claim exercises them). -/
def jsStrToNumber (s : String) : Option ℚ :=
  let cs := ((s.toList.dropWhile jsIsSpace).reverse.dropWhile jsIsSpace).reverse
  match cs with
  | [] => some 0
  | '-' :: rest => (jsUnsignedNum rest).map (fun q => -q)
  | '+' :: rest => jsUnsignedNum rest
  | _ => jsUnsignedNum cs

/-- JS `ToNumber` on our value type; `none` is NaN.  Singleton arrays are
coerced through their element the way JS stringification behaves for
numbers, strings and null; remaining array/object corners are
approximated as NaN (no claim exercises them). -/
def JSVal.toNumber : JSVal → Option ℚ
  | .undefined => none
  | .null => some 0
  | .bool b => some (if b then 1 else 0)
  | .num q => some q
  | .str s => jsStrToNumber s
  | .arr [] => some 0
  | .arr [JSVal.num q] => some q
  | .arr [JSVal.str s] => jsStrToNumber s
  | .arr [JSVal.null] => some 0
  | .arr [JSVal.undefined] => some 0
  | .arr _ => none
  | .obj _ => none

/-- Property read `v[k]` as `parseAIResponse` performs on the parsed
response; absent properties give `undefined`.  Duplicate JSON keys are not
modelled (JS keeps the last, this model the first; no claim uses them). -/
def jsGet (v : JSVal) (k : String) : JSVal :=
  match v with
  | .obj fields => (fields.lookup k).getD .undefined
  | _ => .undefined

/-- JS `x || d`. -/
def jsOr (v d : JSVal) : JSVal := if v.truthy then v else d

/-- Binary JS `Math.min` (NaN-propagating). -/
def mathMin (a b : Option ℚ) : Option ℚ :=
  match a, b with
  | some x, some y => some (min x y)
  | _, _ => none

/-- Binary JS `Math.max` (NaN-propagating). -/
def mathMax (a b : Option ℚ) : Option ℚ :=
  match a, b with
  | some x, some y => some (max x y)
  | _, _ => none

/-- The ephemeral analysis record produced by `parseAIResponse`
(`aiSchedulerService.js` lines 271-304). -/
structure AnalysisResult where
  priorityScore : Option ℚ
  complexityScore : Option ℚ
  urgencyFactors : List JSVal
  delayRiskFactors : List JSVal
  estimatedDuration : Option ℚ
  successProbability : Option ℚ
  similarCasesCount : Option ℚ
  reasoning : JSVal

/-- The default analysis returned from the catch branch of
`parseAIResponse` (lines 292-302). -/
def defaultAnalysis : AnalysisResult :=
  { priorityScore := some 50,
    complexityScore := some 50,
    urgencyFactors := [JSVal.str "Analysis parsing failed"],
    delayRiskFactors := [JSVal.str "Unable to determine"],
    estimatedDuration := some 30,
    successProbability := some 50,
    similarCasesCount := some 0,
    reasoning := JSVal.str "Default analysis due to parsing error" }

/-- `Math.max(0, Math.min(100, x || d))` on a read field. -/
def clamp0100 (v : JSVal) (d : ℚ) : Option ℚ :=
  mathMax (some 0) (mathMin (some 100) (JSVal.toNumber (jsOr v (.num d))))

/-- Lines 277-287: the normalisation applied to a successfully parsed
response value. -/
def normalizeAnalysis (v : JSVal) : AnalysisResult :=
  { priorityScore := clamp0100 (jsGet v "priorityScore") 50,
    complexityScore := clamp0100 (jsGet v "complexityScore") 50,
    urgencyFactors :=
      match jsGet v "urgencyFactors" with
      | .arr xs => xs
      | _ => [],
    delayRiskFactors :=
      match jsGet v "delayRiskFactors" with
      | .arr xs => xs
      | _ => [],
    estimatedDuration :=
      mathMax (some 1) (JSVal.toNumber (jsOr (jsGet v "estimatedDuration") (.num 30))),
    successProbability := clamp0100 (jsGet v "successProbability") 50,
    similarCasesCount :=
      mathMax (some 0) (JSVal.toNumber (jsOr (jsGet v "similarCasesCount") (.num 0))),
    reasoning := jsOr (jsGet v "reasoning") (.str "AI analysis completed") }

/-- Lines 271-304 (`parseAIResponse`): code-fence stripping followed by
`JSON.parse` is modelled by the `Option JSVal` argument (`none` means the
parse threw).  Reading a property of a parsed `null` throws a TypeError
inside the same try block, landing in the catch, hence the default. -/
def parseAIResponse (parsed : Option JSVal) : AnalysisResult :=
  match parsed with
  | none => defaultAnalysis
  | some .null => defaultAnalysis
  | some .undefined => defaultAnalysis
  | some v => normalizeAnalysis v

/-- Lines 314-318 of `updateCaseWithAIAnalysis`: the priority label
written from the score.  JS `>=` comparisons are false on NaN, so a NaN
score falls through every branch to `low`. -/
def priorityLevelOfScore (s : Option ℚ) : String :=
  match s with
  | some q =>
    if 90 ≤ q then "critical"
    else if 75 ≤ q then "urgent"
    else if 60 ≤ q then "high"
    else if 40 ≤ q then "medium"
    else "low"
  | none => "low"

/-- Delay tracking sub-record (`caseSchema.delayInfo`, lines 200-209). -/
structure DelayData where
  isDelayed : Bool
  delayDays : ℤ
  delayImpact : String
deriving DecidableEq

/-- An entry of `caseSchema.notes` (lines 229-243).  `createdBy` models
the ObjectId reference (`none` is JS `null`); the schema marks both
`content` and `createdBy` as `required`. -/
structure CaseNote where
  content : String
  createdBy : Option String
  category : String
  isPrivate : Bool
deriving DecidableEq

/-- `caseSchema.aiAnalysis` (lines 189-197); `lastAnalyzed = none` models
the field being absent. -/
structure AiAnalysisData where
  complexityScore : Option ℚ
  urgencyFactors : List JSVal
  delayRiskFactors : List JSVal
  estimatedDuration : Option ℚ
  similarCasesCount : Option ℚ
  successProbability : Option ℚ
  lastAnalyzed : Option ℤ

/-- The scheduling-relevant subset of a case document. -/
structure CaseDoc where
  caseNumber : String
  status : String
  priority : String
  priorityScore : Option ℚ
  hearingDate : Option ℤ
  expectedCompletionDate : Option ℤ
  aiAnalysis : AiAnalysisData
  delayInfo : DelayData
  notes : List CaseNote
  updatedAt : ℤ

def terminalStatuses : List String := ["completed", "dismissed", "settled"]

def activeStatuses : List String := ["assigned", "in_progress", "awaiting_hearing"]

/-- Lines 346-349 of the Case model: delay impact from the final
`delayDays` (strict thresholds, as in the source). -/
def delayImpactOf (dd : ℤ) : String :=
  if 180 < dd then "critical"
  else if 90 < dd then "high"
  else if 30 < dd then "medium"
  else "low"

/-- `caseSchema.methods.updateDelayInfo` (lines 324-350): recompute
`delayInfo` from `expectedCompletionDate` and `hearingDate` against the
current time.  A Date object is always truthy in JS, so the `&&` guards
are just presence checks. -/
def updateDelayInfo (c : CaseDoc) (now : ℤ) : CaseDoc :=
  let s1 : Bool × ℤ :=
    match c.expectedCompletionDate with
    | some e => if e < now then (true, (now - e).fdiv 86400000) else (false, 0)
    | none => (false, 0)
  let s2 : Bool × ℤ :=
    match c.hearingDate with
    | some h =>
      if h < now ∧ c.status = "awaiting_hearing" then
        (true, max s1.2 ((now - h).fdiv 86400000))
      else s1
    | none => s1
  { c with
    delayInfo :=
      { isDelayed := s2.1, delayDays := s2.2, delayImpact := delayImpactOf s2.2 } }

/-- Mongoose `required` validation of the notes subdocuments: `createdBy`
must be a non-null ObjectId and `content` a non-empty string. -/
def validCaseNotes (c : CaseDoc) : Bool :=
  c.notes.all (fun n => n.createdBy.isSome && decide (n.content ≠ ""))

/-- `caseDoc.save()`: mongoose runs validation before the save middleware
(a note whose `createdBy` is null rejects the save with a validation
error), then the `pre('save')` hook recomputes `delayInfo` (the
`caseNumber`-generation branch is inactive for documents that already
have a number), and `timestamps: true` refreshes `updatedAt`. -/
def saveCase (c : CaseDoc) (now : ℤ) : Except String CaseDoc :=
  if validCaseNotes c then
    Except.ok { updateDelayInfo c now with updatedAt := now }
  else
    Except.error "Case validation failed: notes.createdBy is required"

/-- JS template-literal rendering of a number.  Integers render as in JS;
decimal rendering of non-integral rationals is simplified (no claim
depends on it). -/
def jsNumToString (s : Option ℚ) : String :=
  match s with
  | none => "NaN"
  | some q => if q.den = 1 then toString q.num else toString q

/-- JS template-literal rendering of a value (array rendering simplified;
no claim exercises non-string reasonings). -/
def jsValToString : JSVal → String
  | .undefined => "undefined"
  | .null => "null"
  | .bool b => if b then "true" else "false"
  | .num q => jsNumToString (some q)
  | .str s => s
  | .arr _ => ""
  | .obj _ => "[object Object]"

/-- Lines 309-344 of `updateCaseWithAIAnalysis`: the in-memory mutation of
the case document before `save()`.  `setDate(getDate() + d)` is modelled
as adding `⌊d⌋` fixed-length days; a NaN duration (JS: Invalid Date) is
modelled as an absent date — claims touching it hypothesise a numeric
duration. -/
def applyAIAnalysis (c : CaseDoc) (a : AnalysisResult) (now : ℤ) : CaseDoc :=
  { c with
    priorityScore := a.priorityScore,
    priority := priorityLevelOfScore a.priorityScore,
    aiAnalysis :=
      { complexityScore := a.complexityScore,
        urgencyFactors := a.urgencyFactors,
        delayRiskFactors := a.delayRiskFactors,
        estimatedDuration := a.estimatedDuration,
        similarCasesCount := a.similarCasesCount,
        successProbability := a.successProbability,
        lastAnalyzed := some now },
    expectedCompletionDate :=
      if c.expectedCompletionDate.isNone || c.status == "assigned" then
        a.estimatedDuration.map (fun d => now + ⌊d⌋ * 86400000)
      else c.expectedCompletionDate,
    notes :=
      c.notes ++
        [{ content :=
             "AI Analysis: Priority Score " ++ jsNumToString a.priorityScore
               ++ "/100. " ++ jsValToString a.reasoning,
           createdBy := none,
           category := "general",
           isPrivate := false }] }

/-- Lines 309-347 (`updateCaseWithAIAnalysis`): mutate, then `save()`. -/
def updateCaseWithAIAnalysis (c : CaseDoc) (a : AnalysisResult) (now : ℤ) :
    Except String CaseDoc :=
  saveCase (applyAIAnalysis c a now) now

/-- The third `$or` branch of `getCasesForAnalysis` compares the
Date-or-missing field `aiAnalysis.lastAnalyzed` with `$lt` against the
literal string `"$updatedAt"` (a `$`-prefixed string inside a plain query
document is not a field reference).  MongoDB comparison operators use
type bracketing — a string-typed operand only ever matches string-valued
fields — so no Date-valued or missing `lastAnalyzed` satisfies it. -/
def bsonDateLtString (_lastAnalyzed : Option ℤ) (_s : String) : Bool := false

/-- Lines 98-120 (`getCasesForAnalysis`) as a predicate on one document. -/
def matchesAnalysisQuery (now : ℤ) (c : CaseDoc) : Bool :=
  (c.aiAnalysis.lastAnalyzed.isNone
      || (match c.aiAnalysis.lastAnalyzed with
          | some t => decide (t < now - 86400000)
          | none => false)
      || (activeStatuses.contains c.status
            && bsonDateLtString c.aiAnalysis.lastAnalyzed "$updatedAt"))
    && !(terminalStatuses.contains c.status)

/-- Lines 98-120: the Case Selector; the store is a list read in natural
order and `.limit(20)` is `take`. -/
def getCasesForAnalysis (store : List CaseDoc) (now : ℤ) : List CaseDoc :=
  (store.filter (matchesAnalysisQuery now)).take 20

/-- A `$gte` comparison against a number only matches numeric fields. -/
def mongoGteNum (v : Option ℚ) (b : ℚ) : Bool :=
  match v with
  | some q => decide (b ≤ q)
  | none => false

/-- A `$lte` comparison against a Date only matches Date-valued fields
(a null `hearingDate` never matches). -/
def mongoLteDate (v : Option ℤ) (b : ℤ) : Bool :=
  match v with
  | some t => decide (t ≤ b)
  | none => false

/-- Lines 421-434 (`getUrgentCases`) as a predicate on one document. -/
def matchesUrgentQuery (now : ℤ) (c : CaseDoc) : Bool :=
  (mongoGteNum c.priorityScore 80
      || (c.delayInfo.isDelayed && decide ((30 : ℤ) ≤ c.delayInfo.delayDays))
      || mongoLteDate c.hearingDate (now + 7 * 86400000))
    && !(terminalStatuses.contains c.status)

/-- Mongo sort key for `priorityScore: -1`; the claims depend only on
membership, for which any permutation works. -/
def scoreKey (c : CaseDoc) : ℚ := c.priorityScore.getD 0

def insertByScoreDesc (c : CaseDoc) : List CaseDoc → List CaseDoc
  | [] => [c]
  | d :: ds =>
    if scoreKey d ≤ scoreKey c then c :: d :: ds else d :: insertByScoreDesc c ds

def sortByScoreDesc (l : List CaseDoc) : List CaseDoc := l.foldr insertByScoreDesc []

/-- Lines 421-434: the urgent-cases query (default limit 10 passed
explicitly). -/
def getUrgentCases (store : List CaseDoc) (now : ℤ) (limit : ℕ) : List CaseDoc :=
  (sortByScoreDesc (store.filter (matchesUrgentQuery now))).take limit

/-- One event of a batch run: a settled batch of per-case outcomes, or
the inter-batch `delay(ms)` pause. -/
inductive RunEv (α β : Type) where
  | batch (results : List (α × Option β))
  | wait (ms : ℕ)

/-- Lines 125-128 with lines 133-154: `processCaseBatch` maps
`analyzeSingleCase` over the batch and `Promise.allSettled` keeps every
outcome; the per-case try/catch turns a failure of `work` (scoring error
or persistence error) into a logged `none` without affecting siblings. -/
def processCaseBatch {α β E : Type} (work : α → Except E β) (cases : List α) :
    List (α × Option β) :=
  cases.map (fun c => (c, (work c).toOption))

/-- Lines 73-83: the batching loop of `runSchedulerAnalysis` — slices of
`batchSize = 5` in list order, with `delay(2000)` after a batch exactly
when `i + batchSize < n`, i.e. when cases remain. -/
def runBatches {α β E : Type} (work : α → Except E β) (cases : List α) :
    List (RunEv α β) :=
  match cases with
  | [] => []
  | c :: cs =>
    RunEv.batch (processCaseBatch work ((c :: cs).take 5)) ::
      (match hd : (c :: cs).drop 5 with
       | [] => []
       | d :: ds => RunEv.wait 2000 :: runBatches work (d :: ds))
termination_by cases.length
decreasing_by
  have hlen : ((c :: cs).drop 5).length = (c :: cs).length - 5 :=
    List.length_drop _ _
  rw [hd] at hlen
  simp only [List.length_cons] at hlen ⊢
  omega

def batchResults {α β : Type} (evs : List (RunEv α β)) : List (List (α × Option β)) :=
  evs.filterMap (fun e =>
    match e with
    | .batch rs => some rs
    | .wait _ => none)

def waitEvCount {α β : Type} (evs : List (RunEv α β)) : ℕ :=
  (evs.filter (fun e =>
    match e with
    | .wait _ => true
    | .batch _ => false)).length

/-- The module-level mutable state of the scheduler singleton (lines
24-28; `processedCases` is never read and is omitted). -/
structure SchedulerState where
  isProcessing : Bool
  lastRunTime : Option ℤ
deriving DecidableEq

inductive RunOutcome where
  | skipped
  | aborted
  | noCases
  | completed
deriving DecidableEq

/-- Per-case work of `analyzeSingleCase` (lines 133-154): the model call
(whose network errors propagate to the per-case catch), the total parse,
and the update/save step (whose persistence errors also land in the
per-case catch). -/
def analyzeCaseWork (score : CaseDoc → Except String (Option JSVal)) (now : ℤ)
    (c : CaseDoc) : Except String CaseDoc :=
  match score c with
  | .error e => .error e
  | .ok resp => updateCaseWithAIAnalysis c (parseAIResponse resp) now

/-- Lines 53-93 (`runSchedulerAnalysis`): the re-entrancy guard, the
selection step (`sel`; a store failure aborts the run inside the catch),
the empty-selection early return (which skips the `lastRunTime` update),
the batching loop, the `lastRunTime = new Date()` update on completion,
and the `finally` clearing `isProcessing`. -/
def runSchedulerAnalysis (st : SchedulerState)
    (sel : Except String (List CaseDoc))
    (score : CaseDoc → Except String (Option JSVal)) (now : ℤ) :
    SchedulerState × RunOutcome × List (RunEv CaseDoc CaseDoc) :=
  if st.isProcessing then (st, RunOutcome.skipped, [])
  else
    match sel with
    | .error _ =>
      ({ isProcessing := false, lastRunTime := st.lastRunTime },
        RunOutcome.aborted, [])
    | .ok [] =>
      ({ isProcessing := false, lastRunTime := st.lastRunTime },
        RunOutcome.noCases, [])
    | .ok (c :: cs) =>
      ({ isProcessing := false, lastRunTime := some now },
        RunOutcome.completed, runBatches (analyzeCaseWork score now) (c :: cs))

/-- The numeric response fields whose clamping C1 constrains. -/
def numericResponseFields : List String :=
  ["priorityScore", "complexityScore", "estimatedDuration",
   "successProbability", "similarCasesCount"]

/-- A field value that coerces to an actual number whenever it is truthy
(falsy values are replaced by the numeric default before coercion). -/
def coercesToNumber (v : JSVal) : Bool :=
  !v.truthy || (JSVal.toNumber v).isSome

/-- Every numeric field of the parse outcome coerces to a number. -/
def numericFieldsCoercible (parsed : Option JSVal) : Bool :=
  match parsed with
  | some v => numericResponseFields.all (fun k => coercesToNumber (jsGet v k))
  | none => true

/-- Spec-side day count: whole days the expected completion date has been
overrun, 0 when not overrun or absent. -/
def completionDelayDays (c : CaseDoc) (now : ℤ) : ℤ :=
  match c.expectedCompletionDate with
  | some e => if e < now then (now - e).fdiv 86400000 else 0
  | none => 0

/-- Spec-side day count: whole days a hearing date has been overrun while
the case is still awaiting the hearing, 0 otherwise. -/
def hearingDelayDays (c : CaseDoc) (now : ℤ) : ℤ :=
  match c.hearingDate with
  | some h =>
    if h < now ∧ c.status = "awaiting_hearing" then (now - h).fdiv 86400000 else 0
  | none => 0

/-- An aiAnalysis sub-record with schema defaults and no `lastAnalyzed`. -/
def emptyAnalysis : AiAnalysisData :=
  { complexityScore := some 50,
    urgencyFactors := [],
    delayRiskFactors := [],
    estimatedDuration := none,
    similarCasesCount := some 0,
    successProbability := some 50,
    lastAnalyzed := none }

def noDelay : DelayData := { isDelayed := false, delayDays := 0, delayImpact := "low" }

/-- C5 failing input: an assigned, non-terminal case analyzed one hour
before `now = 172800000` (inside the 24h window) and modified half an
hour before `now`, i.e. after its last analysis. -/
def staleAnalyzedCase : CaseDoc :=
  { caseNumber := "CASE/2025/0001",
    status := "assigned",
    priority := "medium",
    priorityScore := some 50,
    hearingDate := none,
    expectedCompletionDate := none,
    aiAnalysis := { emptyAnalysis with lastAnalyzed := some 169200000 },
    delayInfo := noDelay,
    notes := [],
    updatedAt := 171000000 }

/-- C6 witness input: a case analyzed exactly at `now = 86400000`. -/
def freshlyAnalyzedCase : CaseDoc :=
  { caseNumber := "CASE/2025/0002",
    status := "assigned",
    priority := "medium",
    priorityScore := some 50,
    hearingDate := none,
    expectedCompletionDate := none,
    aiAnalysis := { emptyAnalysis with lastAnalyzed := some 86400000 },
    delayInfo := noDelay,
    notes := [],
    updatedAt := 86400000 }

/-- C9 scenario: an active case with priority score 82, no delay, no
hearing date. -/
def urgentCase82 : CaseDoc :=
  { caseNumber := "CASE/2025/0003",
    status := "in_progress",
    priority := "urgent",
    priorityScore := some 82,
    hearingDate := none,
    expectedCompletionDate := none,
    aiAnalysis := emptyAnalysis,
    delayInfo := noDelay,
    notes := [],
    updatedAt := 0 }

/-- C9 scenario: identical to `urgentCase82` except for score 70. -/
def urgentCase70 : CaseDoc :=
  { urgentCase82 with caseNumber := "CASE/2025/0004", priorityScore := some 70 }

/-- C9 counterexample input: score 10, no qualifying delay, and a hearing
date 30 days BEFORE `now = 5184000000`. -/
def pastHearingCase : CaseDoc :=
  { caseNumber := "CASE/2025/0005",
    status := "in_progress",
    priority := "low",
    priorityScore := some 10,
    hearingDate := some 2592000000,
    expectedCompletionDate := none,
    aiAnalysis := emptyAnalysis,
    delayInfo := noDelay,
    notes := [],
    updatedAt := 0 }

/-- C10 witness input: expected completion 3 days before `now =
259200000`, no hearing date. -/
def overdueCase : CaseDoc :=
  { caseNumber := "CASE/2025/0006",
    status := "in_progress",
    priority := "medium",
    priorityScore := some 50,
    hearingDate := none,
    expectedCompletionDate := some 0,
    aiAnalysis := emptyAnalysis,
    delayInfo := noDelay,
    notes := [],
    updatedAt := 0 }

/-- C7 witness work function: case 3 fails, the others succeed. -/
def oneFailingWork : ℕ → Except Unit ℕ :=
  fun n => if n = 3 then Except.error () else Except.ok n

/-- C8 witness scoring stub. -/
def stubScore : CaseDoc → Except String (Option JSVal) := fun _ => Except.ok none

/- ------------------------------------------------------------------ -/
/- Theorems                                                           -/
/- ------------------------------------------------------------------ -/

theorem toNumber_jsOr_some (v : JSVal) (d : ℚ) (h : coercesToNumber v = true) :
    ∃ x, JSVal.toNumber (jsOr v (.num d)) = some x := by
  by_cases ht : v.truthy = true
  · unfold coercesToNumber at h
    rw [ht] at h
    simp only [Bool.not_true, Bool.false_or] at h
    obtain ⟨x, hx⟩ := Option.isSome_iff_exists.mp h
    exact ⟨x, by simp [jsOr, ht, hx]⟩
  · have ht' : v.truthy = false := by simpa using ht
    exact ⟨d, by simp [jsOr, ht', JSVal.toNumber]⟩

theorem clamp0100_bounds (v : JSVal) (d : ℚ) (h : coercesToNumber v = true) :
    ∃ q, clamp0100 v d = some q ∧ 0 ≤ q ∧ q ≤ 100 := by
  obtain ⟨x, hx⟩ := toNumber_jsOr_some v d h
  refine ⟨max 0 (min 100 x), ?_, le_max_left _ _,
    max_le (by norm_num) (min_le_left _ _)⟩
  unfold clamp0100
  rw [hx]
  rfl

theorem durationField_bound (v : JSVal) (h : coercesToNumber v = true) :
    ∃ q, mathMax (some 1) (JSVal.toNumber (jsOr v (.num 30))) = some q ∧ 1 ≤ q := by
  obtain ⟨x, hx⟩ := toNumber_jsOr_some v 30 h
  exact ⟨max 1 x, by rw [hx]; rfl, le_max_left _ _⟩

theorem countField_bound (v : JSVal) (h : coercesToNumber v = true) :
    ∃ q, mathMax (some 0) (JSVal.toNumber (jsOr v (.num 0))) = some q ∧ 0 ≤ q := by
  obtain ⟨x, hx⟩ := toNumber_jsOr_some v 0 h
  exact ⟨max 0 x, by rw [hx]; rfl, le_max_left _ _⟩

/-- The bounds, stated for the normalisation of one parsed value. -/
theorem normalizeAnalysis_bounds (v : JSVal)
    (h : numericResponseFields.all (fun k => coercesToNumber (jsGet v k)) = true) :
    (∃ q, (normalizeAnalysis v).priorityScore = some q ∧ 0 ≤ q ∧ q ≤ 100)
    ∧ (∃ q, (normalizeAnalysis v).complexityScore = some q ∧ 0 ≤ q ∧ q ≤ 100)
    ∧ (∃ q, (normalizeAnalysis v).successProbability = some q ∧ 0 ≤ q ∧ q ≤ 100)
    ∧ (∃ q, (normalizeAnalysis v).estimatedDuration = some q ∧ 1 ≤ q)
    ∧ (∃ q, (normalizeAnalysis v).similarCasesCount = some q ∧ 0 ≤ q) := by
  simp only [numericResponseFields, List.all_cons, List.all_nil,
    Bool.and_eq_true, Bool.and_true] at h
  obtain ⟨h1, h2, h3, h4, h5⟩ := h
  exact ⟨clamp0100_bounds _ 50 h1, clamp0100_bounds _ 50 h2,
    clamp0100_bounds _ 50 h4, durationField_bound _ h3, countField_bound _ h5⟩

/-- C1 (amended): for every parse outcome whose present numeric fields
coerce to actual numbers, the result satisfies all the documented
bounds — `0 ≤ priorityScore, complexityScore, successProbability ≤ 100`,
`estimatedDuration ≥ 1`, `similarCasesCount ≥ 0`; this covers well-formed
JSON, JSON with missing or falsy fields, and unparseable text.  A truthy
non-numeric field value (e.g. a non-numeric string) instead propagates
NaN, see `parseAIResponse_nan_cex`. -/
theorem parseAIResponse_bounds (parsed : Option JSVal)
    (h : numericFieldsCoercible parsed = true) :
    (∃ q, (parseAIResponse parsed).priorityScore = some q ∧ 0 ≤ q ∧ q ≤ 100)
    ∧ (∃ q, (parseAIResponse parsed).complexityScore = some q ∧ 0 ≤ q ∧ q ≤ 100)
    ∧ (∃ q, (parseAIResponse parsed).successProbability = some q ∧ 0 ≤ q ∧ q ≤ 100)
    ∧ (∃ q, (parseAIResponse parsed).estimatedDuration = some q ∧ 1 ≤ q)
    ∧ (∃ q, (parseAIResponse parsed).similarCasesCount = some q ∧ 0 ≤ q) := by
  have hdef :
      (∃ q, defaultAnalysis.priorityScore = some q ∧ 0 ≤ q ∧ q ≤ 100)
      ∧ (∃ q, defaultAnalysis.complexityScore = some q ∧ 0 ≤ q ∧ q ≤ 100)
      ∧ (∃ q, defaultAnalysis.successProbability = some q ∧ 0 ≤ q ∧ q ≤ 100)
      ∧ (∃ q, defaultAnalysis.estimatedDuration = some q ∧ 1 ≤ q)
      ∧ (∃ q, defaultAnalysis.similarCasesCount = some q ∧ 0 ≤ q) :=
    ⟨⟨50, rfl, by norm_num, by norm_num⟩, ⟨50, rfl, by norm_num, by norm_num⟩,
      ⟨50, rfl, by norm_num, by norm_num⟩, ⟨30, rfl, by norm_num⟩,
      ⟨0, rfl, le_refl 0⟩⟩
  match parsed with
  | none => exact hdef
  | some JSVal.null => exact hdef
  | some JSVal.undefined => exact hdef
  | some (JSVal.bool b) => exact normalizeAnalysis_bounds _ h
  | some (JSVal.num q) => exact normalizeAnalysis_bounds _ h
  | some (JSVal.str s) => exact normalizeAnalysis_bounds _ h
  | some (JSVal.arr xs) => exact normalizeAnalysis_bounds _ h
  | some (JSVal.obj fs) => exact normalizeAnalysis_bounds _ h

theorem parseAIResponse_bounds_witness :
    numericFieldsCoercible (some (.obj [("priorityScore", JSVal.num 150)])) = true
    ∧ ((∃ q, (parseAIResponse (some (.obj [("priorityScore", JSVal.num 150)]))).priorityScore
            = some q ∧ 0 ≤ q ∧ q ≤ 100)
      ∧ (∃ q, (parseAIResponse (some (.obj [("priorityScore", JSVal.num 150)]))).complexityScore
            = some q ∧ 0 ≤ q ∧ q ≤ 100)
      ∧ (∃ q, (parseAIResponse (some (.obj [("priorityScore", JSVal.num 150)]))).successProbability
            = some q ∧ 0 ≤ q ∧ q ≤ 100)
      ∧ (∃ q, (parseAIResponse (some (.obj [("priorityScore", JSVal.num 150)]))).estimatedDuration
            = some q ∧ 1 ≤ q)
      ∧ (∃ q, (parseAIResponse (some (.obj [("priorityScore", JSVal.num 150)]))).similarCasesCount
            = some q ∧ 0 ≤ q)) :=
  ⟨by decide, parseAIResponse_bounds _ (by decide)⟩

/-- C1 counterexample: the well-formed JSON object
`("priorityScore": "very high")` has a wrong-typed (string) field; it is
truthy, so the `|| 50` default is skipped, and `Math.min(100, ...)`
yields NaN — the stored score is NaN, not a number in [0, 100]. -/
theorem parseAIResponse_nan_cex :
    (parseAIResponse
        (some (.obj [("priorityScore", JSVal.str "very high")]))).priorityScore = none
    ∧ ¬ ∃ q,
        (parseAIResponse
            (some (.obj [("priorityScore", JSVal.str "very high")]))).priorityScore
          = some q ∧ 0 ≤ q ∧ q ≤ 100 := by
  have h0 :
      (parseAIResponse
          (some (.obj [("priorityScore", JSVal.str "very high")]))).priorityScore
        = none := by decide
  refine ⟨h0, ?_⟩
  rintro ⟨q, hq, -, -⟩
  rw [h0] at hq
  exact Option.noConfusion hq

/-- C2: the priority label written by the update step is a pure function
of the score with the claimed bands (≥90 critical, 75-89 urgent, 60-74
high, 40-59 medium, otherwise low), and the claimed boundary scores map
as stated. -/
theorem priorityLevel_bands :
    (∀ q : ℚ,
        (priorityLevelOfScore (some q) = "critical" ↔ 90 ≤ q)
        ∧ (priorityLevelOfScore (some q) = "urgent" ↔ 75 ≤ q ∧ q < 90)
        ∧ (priorityLevelOfScore (some q) = "high" ↔ 60 ≤ q ∧ q < 75)
        ∧ (priorityLevelOfScore (some q) = "medium" ↔ 40 ≤ q ∧ q < 60)
        ∧ (priorityLevelOfScore (some q) = "low" ↔ q < 40))
    ∧ priorityLevelOfScore (some 90) = "critical"
    ∧ priorityLevelOfScore (some 89) = "urgent"
    ∧ priorityLevelOfScore (some 60) = "high"
    ∧ priorityLevelOfScore (some 59) = "medium"
    ∧ priorityLevelOfScore (some 40) = "medium"
    ∧ priorityLevelOfScore (some 39) = "low" := by
  have hunf : ∀ q : ℚ,
      priorityLevelOfScore (some q)
        = if 90 ≤ q then "critical"
          else if 75 ≤ q then "urgent"
          else if 60 ≤ q then "high"
          else if 40 ≤ q then "medium"
          else "low" := fun _ => rfl
  refine ⟨?_, by decide, by decide, by decide, by decide, by decide, by decide⟩
  intro q
  rw [hunf]
  split_ifs with h1 h2 h3 h4 <;>
    refine ⟨?_, ?_, ?_, ?_, ?_⟩ <;>
    first
      | exact iff_of_true rfl (by constructor <;> linarith)
      | exact iff_of_true rfl (by linarith)
      | exact iff_of_false (by decide) (by rintro ⟨h5, h6⟩; linarith)
      | exact iff_of_false (by decide) (by intro h5; linarith)

/-- C3 (amended): a response that fails to parse as JSON (or parses to
null, whose property reads throw inside the same try) yields the full
documented default result, whose reasoning notes the fallback; a
parseable object lacking `priorityScore` also never throws and yields
`priorityScore = 50` and a non-empty reasoning string (whenever its
reasoning field is absent, null, or a string) — but fields that ARE
present keep their normalised values instead of the documented defaults,
see `parseAIResponse_missing_cex`. -/
theorem parseAIResponse_fallbacks :
    ((parseAIResponse none).priorityScore = some 50
      ∧ (parseAIResponse none).complexityScore = some 50
      ∧ (parseAIResponse none).estimatedDuration = some 30
      ∧ (parseAIResponse none).successProbability = some 50
      ∧ (parseAIResponse none).similarCasesCount = some 0
      ∧ (parseAIResponse none).reasoning
          = JSVal.str "Default analysis due to parsing error"
      ∧ (parseAIResponse (some JSVal.null)).priorityScore = some 50
      ∧ "Default analysis due to parsing error" ≠ "")
    ∧ ∀ fields : List (String × JSVal),
        fields.lookup "priorityScore" = none →
        (∀ r, fields.lookup "reasoning" = some r →
            r = JSVal.null ∨ ∃ s, r = JSVal.str s) →
        (parseAIResponse (some (.obj fields))).priorityScore = some 50
          ∧ ∃ s, (parseAIResponse (some (.obj fields))).reasoning = JSVal.str s
              ∧ s ≠ "" := by
  refine ⟨⟨by decide, by decide, by decide, by decide, by decide, rfl, by decide,
    by decide⟩, ?_⟩
  intro fields h1 h2
  have hget : jsGet (.obj fields) "priorityScore" = .undefined := by
    show (fields.lookup "priorityScore").getD JSVal.undefined = JSVal.undefined
    rw [h1]
    rfl
  constructor
  · show clamp0100 (jsGet (JSVal.obj fields) "priorityScore") 50 = some 50
    rw [hget]
    decide
  · show ∃ s,
        jsOr (jsGet (JSVal.obj fields) "reasoning") (.str "AI analysis completed")
          = JSVal.str s ∧ s ≠ ""
    cases hr : fields.lookup "reasoning" with
    | none =>
      have hg : jsGet (.obj fields) "reasoning" = .undefined := by
        show (fields.lookup "reasoning").getD JSVal.undefined = JSVal.undefined
        rw [hr]
        rfl
      exact ⟨"AI analysis completed", by rw [hg]; rfl, by decide⟩
    | some r =>
      have hg : jsGet (.obj fields) "reasoning" = r := by
        show (fields.lookup "reasoning").getD JSVal.undefined = r
        rw [hr]
        rfl
      rcases h2 r hr with hnull | ⟨s, hs⟩
      · rw [hg, hnull]
        exact ⟨"AI analysis completed", rfl, by decide⟩
      · by_cases hse : s = ""
        · rw [hg, hs, hse]
          exact ⟨"AI analysis completed", rfl, by decide⟩
        · refine ⟨s, ?_, hse⟩
          rw [hg, hs]
          have ht : JSVal.truthy (JSVal.str s) = true := by
            simp [JSVal.truthy, hse]
          simp [jsOr, ht]

theorem parseAIResponse_fallbacks_witness :
    (parseAIResponse (some (.obj [("complexityScore", JSVal.num 80)]))).priorityScore
        = some 50
    ∧ ∃ s,
        (parseAIResponse (some (.obj [("complexityScore", JSVal.num 80)]))).reasoning
          = JSVal.str s ∧ s ≠ "" :=
  parseAIResponse_fallbacks.2 [("complexityScore", JSVal.num 80)] rfl
    (fun _ hr => Option.noConfusion hr)

/-- C3 counterexample: the valid-JSON response `("complexityScore": 80)`
lacks `priorityScore`, yet the parser does not return the documented
default result — the provided field keeps its value 80 instead of the
default 50 (the full default is produced only when the parse itself
throws). -/
theorem parseAIResponse_missing_cex :
    (List.lookup "priorityScore" [("complexityScore", JSVal.num 80)]
        : Option JSVal) = none
    ∧ (parseAIResponse
          (some (.obj [("complexityScore", JSVal.num 80)]))).complexityScore
        = some 80
    ∧ (parseAIResponse
          (some (.obj [("complexityScore", JSVal.num 80)]))).complexityScore
        ≠ some 50 :=
  ⟨rfl, by decide, by decide⟩

/-- C4: the update step never persists — the analysis note it appends
carries `createdBy: null` ("System-generated note") while the Case schema
marks `notes.createdBy` as `required`, so mongoose validation rejects
every `save()` issued by `updateCaseWithAIAnalysis`, for every case,
analysis result and time. -/
theorem updateCase_never_persists (c : CaseDoc) (a : AnalysisResult) (now : ℤ) :
    updateCaseWithAIAnalysis c a now
      = Except.error "Case validation failed: notes.createdBy is required" := by
  unfold updateCaseWithAIAnalysis saveCase
  have hval : validCaseNotes (applyAIAnalysis c a now) = false := by
    unfold validCaseNotes applyAIAnalysis
    simp [List.all_append]
  rw [hval]
  rfl

/-- C5: the Case Selector's third eligibility branch compares the Date
field `aiAnalysis.lastAnalyzed` against the literal string `"$updatedAt"`
and so never matches; `staleAnalyzedCase` is assigned, non-terminal,
analyzed within the last 24 hours and modified after that analysis, yet
is NOT selected. -/
theorem getCasesForAnalysis_statusChange_bug :
    activeStatuses.contains staleAnalyzedCase.status = true
    ∧ terminalStatuses.contains staleAnalyzedCase.status = false
    ∧ staleAnalyzedCase.aiAnalysis.lastAnalyzed = some 169200000
    ∧ (172800000 - 86400000 : ℤ) < 169200000
    ∧ (169200000 : ℤ) < staleAnalyzedCase.updatedAt
    ∧ getCasesForAnalysis [staleAnalyzedCase] 172800000 = [] := by
  refine ⟨by decide, by decide, rfl, by decide, ?_, ?_⟩
  · show (169200000 : ℤ) < 171000000
    decide
  · have hm : matchesAnalysisQuery 172800000 staleAnalyzedCase = false := by decide
    simp [getCasesForAnalysis, List.filter_cons, hm]

/-- C6: a case whose `lastAnalyzed` equals the current time is not
selected by the Case Selector at that time, whatever the store, its
status and its other fields. -/
theorem selector_idempotent (store : List CaseDoc) (now : ℤ) (c : CaseDoc)
    (h : c.aiAnalysis.lastAnalyzed = some now) :
    c ∉ getCasesForAnalysis store now := by
  intro hmem
  have hmem2 : c ∈ store.filter (matchesAnalysisQuery now) :=
    List.take_subset _ _ hmem
  have hmatch : matchesAnalysisQuery now c = true := (List.mem_filter.mp hmem2).2
  unfold matchesAnalysisQuery at hmatch
  rw [h] at hmatch
  simp [bsonDateLtString, decide_eq_true_eq] at hmatch
  omega

theorem selector_idempotent_witness :
    freshlyAnalyzedCase ∉ getCasesForAnalysis [freshlyAnalyzedCase] 86400000 :=
  selector_idempotent [freshlyAnalyzedCase] 86400000 freshlyAnalyzedCase rfl

/-- C10: `updateDelayInfo` — run by the pre-save hook on every
successfully validated save — recomputes the delay record: `isDelayed`
holds exactly when the expected completion date has passed, or a hearing
date has passed while the case is still awaiting the hearing; `delayDays`
is the maximum of the two day counts (0 when not delayed); `delayImpact`
is derived from the recomputed `delayDays` by the 30/90/180 thresholds;
and a successful save persists exactly this recomputed record. -/
theorem updateDelayInfo_spec (c : CaseDoc) (now : ℤ) :
    ((updateDelayInfo c now).delayInfo.isDelayed = true ↔
        (∃ e, c.expectedCompletionDate = some e ∧ e < now)
        ∨ (∃ h, c.hearingDate = some h ∧ h < now
            ∧ c.status = "awaiting_hearing"))
    ∧ (updateDelayInfo c now).delayInfo.delayDays
        = max (completionDelayDays c now) (hearingDelayDays c now)
    ∧ ((updateDelayInfo c now).delayInfo.isDelayed = false →
        (updateDelayInfo c now).delayInfo.delayDays = 0)
    ∧ (updateDelayInfo c now).delayInfo.delayImpact
        = delayImpactOf ((updateDelayInfo c now).delayInfo.delayDays)
    ∧ (validCaseNotes c = true →
        saveCase c now
          = Except.ok { updateDelayInfo c now with updatedAt := now }) := by
  have hsave : validCaseNotes c = true →
      saveCase c now = Except.ok { updateDelayInfo c now with updatedAt := now } := by
    intro hv
    simp [saveCase, hv]
  refine ⟨?_, ?_, ?_, ?_, hsave⟩ <;>
    rcases hE : c.expectedCompletionDate with _ | e <;>
    rcases hH : c.hearingDate with _ | h <;>
    simp [updateDelayInfo, completionDelayDays, hearingDelayDays, hE, hH] <;>
    split_ifs with h1 h2 <;>
    simp_all <;>
    exact Int.fdiv_nonneg (by omega) (by norm_num)

theorem updateDelayInfo_spec_witness :
    (updateDelayInfo overdueCase 259200000).delayInfo.isDelayed = true
    ∧ (updateDelayInfo overdueCase 259200000).delayInfo.delayDays
        = max (completionDelayDays overdueCase 259200000)
            (hearingDelayDays overdueCase 259200000)
    ∧ validCaseNotes overdueCase = true
    ∧ saveCase overdueCase 259200000
        = Except.ok
            { updateDelayInfo overdueCase 259200000 with updatedAt := 259200000 } :=
  ⟨(updateDelayInfo_spec overdueCase 259200000).1.mpr
      (Or.inl ⟨0, rfl, by decide⟩),
    (updateDelayInfo_spec overdueCase 259200000).2.1,
    by decide,
    (updateDelayInfo_spec overdueCase 259200000).2.2.2.2 (by decide)⟩

/-- C8: invoking the hourly run while a run is in progress is a no-op
(unchanged state, skipped, no batches); a run started from Idle always
returns to Idle, whether it aborts on a selection error, finds no cases,
or completes its batches; `lastRunTime` changes only when the run fully
completes (and is then set to `now`); an aborted run leaves it
unchanged. -/
theorem runSchedulerAnalysis_state (st : SchedulerState)
    (sel : Except String (List CaseDoc))
    (score : CaseDoc → Except String (Option JSVal)) (now : ℤ) :
    (st.isProcessing = true →
        runSchedulerAnalysis st sel score now = (st, RunOutcome.skipped, []))
    ∧ (st.isProcessing = false →
        (runSchedulerAnalysis st sel score now).1.isProcessing = false)
    ∧ ((runSchedulerAnalysis st sel score now).1.lastRunTime ≠ st.lastRunTime →
        (runSchedulerAnalysis st sel score now).2.1 = RunOutcome.completed
          ∧ (runSchedulerAnalysis st sel score now).1.lastRunTime = some now)
    ∧ ((runSchedulerAnalysis st sel score now).2.1 = RunOutcome.completed →
        st.isProcessing = false
          ∧ (runSchedulerAnalysis st sel score now).1.lastRunTime = some now)
    ∧ ((runSchedulerAnalysis st sel score now).2.1 = RunOutcome.aborted →
        (runSchedulerAnalysis st sel score now).1.lastRunTime = st.lastRunTime) := by
  cases hst : st.isProcessing <;> rcases sel with e | (_ | ⟨c, cs⟩) <;>
    simp [runSchedulerAnalysis, hst]

theorem runSchedulerAnalysis_state_witness :
    (SchedulerState.mk true (some 0)).isProcessing = true
    ∧ runSchedulerAnalysis ⟨true, some 0⟩ (Except.ok []) stubScore 7
        = (⟨true, some 0⟩, RunOutcome.skipped, []) :=
  ⟨rfl,
    (runSchedulerAnalysis_state ⟨true, some 0⟩ (Except.ok []) stubScore 7).1 rfl⟩

theorem mem_insertByScoreDesc {x c : CaseDoc} {l : List CaseDoc} :
    x ∈ insertByScoreDesc c l ↔ x = c ∨ x ∈ l := by
  induction l with
  | nil => simp [insertByScoreDesc]
  | cons d ds ih =>
    unfold insertByScoreDesc
    split_ifs with h
    · simp [List.mem_cons]
    · simp [List.mem_cons, ih]
      tauto

theorem mem_sortByScoreDesc {x : CaseDoc} {l : List CaseDoc} :
    x ∈ sortByScoreDesc l ↔ x ∈ l := by
  induction l with
  | nil => simp [sortByScoreDesc]
  | cons d ds ih =>
    show x ∈ insertByScoreDesc d (sortByScoreDesc ds) ↔ x ∈ d :: ds
    rw [mem_insertByScoreDesc]
    simp [List.mem_cons, ih]

/-- C9 (amended): every case returned by the urgent query is non-terminal
and has score ≥ 80, or is delayed at least 30 days, or has a hearing date
at most 7 days in the future — including PAST hearing dates, since the
`$lte` bound has no lower counterpart (see
`getUrgentCases_pastHearing_cex`); the concrete 82/70 pair behaves as the
claim states. -/
theorem getUrgentCases_spec :
    (∀ (store : List CaseDoc) (now : ℤ) (c : CaseDoc),
        c ∈ getUrgentCases store now 10 →
        terminalStatuses.contains c.status = false
        ∧ ((∃ q, c.priorityScore = some q ∧ 80 ≤ q)
            ∨ (c.delayInfo.isDelayed = true ∧ 30 ≤ c.delayInfo.delayDays)
            ∨ (∃ h, c.hearingDate = some h ∧ h ≤ now + 7 * 86400000)))
    ∧ urgentCase82 ∈ getUrgentCases [urgentCase82, urgentCase70] 0 10
    ∧ urgentCase70 ∉ getUrgentCases [urgentCase82, urgentCase70] 0 10 := by
  have heq : getUrgentCases [urgentCase82, urgentCase70] 0 10 = [urgentCase82] := rfl
  refine ⟨?_, ?_, ?_⟩
  · intro store now c hc
    have hc2 : c ∈ sortByScoreDesc (store.filter (matchesUrgentQuery now)) :=
      List.take_subset _ _ hc
    have hc3 : c ∈ store.filter (matchesUrgentQuery now) :=
      mem_sortByScoreDesc.mp hc2
    have hm : matchesUrgentQuery now c = true := (List.mem_filter.mp hc3).2
    unfold matchesUrgentQuery at hm
    simp only [Bool.and_eq_true, Bool.or_eq_true, Bool.not_eq_true'] at hm
    obtain ⟨hor, hterm⟩ := hm
    refine ⟨hterm, ?_⟩
    rcases hor with (h | h) | h
    · left
      unfold mongoGteNum at h
      rcases hps : c.priorityScore with _ | q
      · rw [hps] at h
        cases h
      · rw [hps] at h
        exact ⟨q, rfl, by simpa using h⟩
    · right; left
      obtain ⟨h1, h2⟩ := h
      exact ⟨h1, by simpa using h2⟩
    · right; right
      unfold mongoLteDate at h
      rcases hh : c.hearingDate with _ | t
      · rw [hh] at h
        cases h
      · rw [hh] at h
        exact ⟨t, rfl, by simpa using h⟩
  · rw [heq]
    exact List.mem_singleton.mpr rfl
  · rw [heq]
    intro hmem
    have hx := List.mem_singleton.mp hmem
    exact absurd (congrArg CaseDoc.priorityScore hx) (by decide)

theorem getUrgentCases_spec_witness :
    urgentCase82 ∈ getUrgentCases [urgentCase82] 0 10
    ∧ (terminalStatuses.contains urgentCase82.status = false
        ∧ ((∃ q, urgentCase82.priorityScore = some q ∧ 80 ≤ q)
            ∨ (urgentCase82.delayInfo.isDelayed = true
                ∧ 30 ≤ urgentCase82.delayInfo.delayDays)
            ∨ (∃ h, urgentCase82.hearingDate = some h
                ∧ h ≤ 0 + 7 * 86400000))) := by
  have hmem : urgentCase82 ∈ getUrgentCases [urgentCase82] 0 10 := by
    have h1 : getUrgentCases [urgentCase82] 0 10 = [urgentCase82] := rfl
    rw [h1]
    exact List.mem_singleton.mpr rfl
  exact ⟨hmem, getUrgentCases_spec.1 [urgentCase82] 0 urgentCase82 hmem⟩

/-- C9 counterexample: a non-terminal case with score 10, no qualifying
delay, and a hearing 30 days in the PAST is returned by the urgent query
(its hearing date satisfies `$lte now + 7d`), although it meets none of
the claim's conditions — its hearing is not within 7 days of
`now = 5184000000` in either direction. -/
theorem getUrgentCases_pastHearing_cex :
    pastHearingCase ∈ getUrgentCases [pastHearingCase] 5184000000 10
    ∧ pastHearingCase.priorityScore = some 10
    ∧ ((10 : ℚ) < 80)
    ∧ pastHearingCase.delayInfo.isDelayed = false
    ∧ pastHearingCase.hearingDate = some 2592000000
    ∧ (2592000000 : ℤ) < 5184000000 - 7 * 86400000 := by
  refine ⟨?_, rfl, by norm_num, rfl, rfl, by decide⟩
  have h1 : getUrgentCases [pastHearingCase] 5184000000 10 = [pastHearingCase] := rfl
  rw [h1]
  exact List.mem_singleton.mpr rfl

theorem runBatches_short {α β E : Type} (work : α → Except E β)
    (x : α) (xs : List α) (h : (x :: xs).length ≤ 5) :
    runBatches work (x :: xs)
      = [RunEv.batch (processCaseBatch work (x :: xs))] := by
  rw [runBatches]
  rw [List.take_of_length_le h]
  split
  · rfl
  · rename_i d ds hd
    rw [List.drop_eq_nil_of_le h] at hd
    exact List.noConfusion hd

theorem runBatches_step {α β E : Type} (work : α → Except E β)
    (a b c d e f : α) (rest : List α) :
    runBatches work (a :: b :: c :: d :: e :: f :: rest)
      = RunEv.batch (processCaseBatch work [a, b, c, d, e])
          :: RunEv.wait 2000 :: runBatches work (f :: rest) := by
  rw [runBatches]
  simp

theorem runBatches_spec_aux {α β E : Type} (work : α → Except E β) :
    ∀ (n : ℕ) (cases : List α), cases.length ≤ n →
      (batchResults (runBatches work cases)).length = (cases.length + 4) / 5
      ∧ (batchResults (runBatches work cases)).flatten
          = cases.map (fun c => (c, (work c).toOption))
      ∧ (∀ b ∈ batchResults (runBatches work cases), b.length ≤ 5)
      ∧ waitEvCount (runBatches work cases)
          = if cases.length = 0 then 0
            else (batchResults (runBatches work cases)).length - 1 := by
  intro n
  induction n with
  | zero =>
    intro cases hlen
    have hnil : cases = [] := List.eq_nil_of_length_eq_zero (Nat.le_zero.mp hlen)
    subst hnil
    simp [runBatches, batchResults, waitEvCount]
  | succ n ih =>
    intro cases hlen
    rcases cases with _ | ⟨a, _ | ⟨b, _ | ⟨c, _ | ⟨d, _ | ⟨e, _ | ⟨f, rest⟩⟩⟩⟩⟩⟩
    · simp [runBatches, batchResults, waitEvCount]
    · rw [runBatches_short work _ _ (by simp)]
      simp [batchResults, waitEvCount, processCaseBatch]
    · rw [runBatches_short work _ _ (by simp)]
      simp [batchResults, waitEvCount, processCaseBatch]
    · rw [runBatches_short work _ _ (by simp)]
      simp [batchResults, waitEvCount, processCaseBatch]
    · rw [runBatches_short work _ _ (by simp)]
      simp [batchResults, waitEvCount, processCaseBatch]
    · rw [runBatches_short work _ _ (by simp)]
      simp [batchResults, waitEvCount, processCaseBatch]
    · have hrec := ih (f :: rest) (by simp at hlen ⊢; omega)
      obtain ⟨ih1, ih2, ih3, ih4⟩ := hrec
      rw [runBatches_step]
      refine ⟨?_, ?_, ?_, ?_⟩
      · simp only [batchResults, List.filterMap_cons, List.length_cons] at ih1 ⊢
        omega
      · simp only [batchResults, List.filterMap_cons] at ih2 ⊢
        simp only [List.flatten_cons]
        rw [ih2]
        simp [processCaseBatch]
      · intro bb hbb
        simp only [batchResults, List.filterMap_cons] at hbb ih3
        rcases List.mem_cons.mp hbb with hbb | hbb
        · subst hbb
          simp [processCaseBatch]
        · exact ih3 bb hbb
      · simp only [batchResults, waitEvCount, List.filterMap_cons, List.filter_cons,
          List.length_cons] at ih1 ih4
        have hne : rest.length + 1 ≠ 0 := by omega
        rw [if_neg hne] at ih4
        simp [waitEvCount, batchResults]
        omega

/-- C7: the batching loop dispatches exactly ⌈n/5⌉ batches of at most 5
cases each, in list order; every case is attempted exactly once with its
own settled outcome, so one case's caught failure never removes another
case's attempt; the 2-second delay occurs exactly between consecutive
batches and never after the last; and 7 cases give exactly 2 batches
with 1 delay. -/
theorem runBatches_batching (α β E : Type) (work : α → Except E β)
    (cases : List α) :
    ((batchResults (runBatches work cases)).length = (cases.length + 4) / 5)
    ∧ (batchResults (runBatches work cases)).flatten
        = cases.map (fun c => (c, (work c).toOption))
    ∧ (∀ b ∈ batchResults (runBatches work cases), b.length ≤ 5)
    ∧ (waitEvCount (runBatches work cases)
        = if cases.length = 0 then 0
          else (batchResults (runBatches work cases)).length - 1)
    ∧ (cases.length = 7 →
        (batchResults (runBatches work cases)).length = 2
          ∧ waitEvCount (runBatches work cases) = 1) := by
  obtain ⟨h1, h2, h3, h4⟩ := runBatches_spec_aux work cases.length cases le_rfl
  refine ⟨h1, h2, h3, h4, ?_⟩
  intro h7
  rw [h7] at h1 h4
  have h1' : (batchResults (runBatches work cases)).length = 2 := by omega
  refine ⟨h1', ?_⟩
  rw [h4, h1']
  norm_num

theorem runBatches_batching_witness :
    (([0, 1, 2, 3, 4, 5, 6] : List ℕ).length = 7)
    ∧ ((batchResults (runBatches oneFailingWork [0, 1, 2, 3, 4, 5, 6])).length = 2
        ∧ waitEvCount (runBatches oneFailingWork [0, 1, 2, 3, 4, 5, 6]) = 1) :=
  ⟨rfl,
    (runBatches_batching ℕ ℕ Unit oneFailingWork [0, 1, 2, 3, 4, 5, 6]).2.2.2.2 rfl⟩
